import Mathlib

/-!
Verification of the Movesense data-collector core
(`src/movesense/movesense_data_collector.py`, `src/movesense/movesense_device_manager.py`)
against its natural-language specification.

Modelling conventions:
* Raw frames are `List ℕ` of byte values (each `< 256`; the transport delivers
  `bytes`, so this bound always holds and is taken as a hypothesis where it matters).
* `struct.unpack('<f', b)` reinterprets four bytes as an IEEE-754 binary32; since this
  map is a bijection between 4-byte strings and bit patterns, a float32 component is
  represented by its little-endian 32-bit pattern as a natural number.
* `datetime.now().timestamp()` (wall-clock seconds, a Python float) is passed in
  explicitly as a rational `now`.
* Python `dict`s preserve insertion order; they are modelled as association lists
  with distinct keys.
* A raised Python exception is modelled as an `Except.error` value; a branch that
  logs and returns normally is modelled as `Except.ok` with the unchanged state.
* pandas numeric cells are rationals; the int64 stages of the unification
  transform (subtraction, max) are exact, while its float64 division and
  multiplication are modelled bit-exactly as round-to-nearest-even binary64
  over significand-exponent pairs (`fdiv`, `fmulNat`); the float64 value NaN
  produced by `0/0` and the NaN result of a `min` over an empty column
  selection are modelled as a raised cast error / `Option.none`, as detailed
  at each definition.
-/

deriving instance DecidableEq for Except

namespace Movesense

/-- A decoded notification, as built in `NotificationHandler.handle_notification`:
`{device_id, sensor_type, timestamp, local_timestamp, sensor_data}`.
`sensor_data` holds the float32 components as little-endian bit patterns; for
Temperature and ECG the source stores a bare float, embedded here as the
one-element list. -/
structure Notification where
  device_id : String
  sensor_type : String
  timestamp : ℕ
  local_timestamp : ℚ
  sensor_data : List ℕ
deriving DecidableEq

/-- A stream key: `(device_id, sensor_type)`, the key of
`MovesenseDataCollector.notification_handlers`. -/
abbrev Key := String × String

/-- The collector's state: the dict `notification_handlers`, each handler carrying
its append-only `notifications` list.  Python dicts preserve insertion order and
have unique keys; modelled as an association list. -/
abbrev CollectorState := List (Key × List Notification)

/-- Errors arising while handling one raw frame.
`indexError i` models the Python `IndexError` raised by `DataView.__get_binary`
when `self.array[i]` is out of range; `unknownSensorType` models the
`logger.error("Unknown sensor type")` branch.  `truncated` is modelled from the
spec (§4.1): the distinguished `Truncated` error value the spec prescribes for
short buffers; the source never constructs it (short reads raise `IndexError`). -/
inductive DecodeError where
  | unknownSensorType
  | indexError (i : ℕ)
  | truncated
deriving DecidableEq

/-- `self.array[i]` on a Python list/bytes: the element, or `IndexError`. -/
def getByte (arr : List ℕ) (i : ℕ) : Except DecodeError ℕ :=
  match arr.get? i with
  | some b => .ok b
  | none => .error (.indexError i)

/-- `DataView.__get_binary(start_index, byte_count)`: reads
`[self.array[start_index + x] for x in range(byte_count)]` in order (the first
out-of-range access raises `IndexError`) and concatenates the little-endian
byte strings.  The byte list is returned; its little-endian numeric value is
taken by the callers. -/
def readBytes (arr : List ℕ) (start : ℕ) : ℕ → Except DecodeError (List ℕ)
  | 0 => .ok []
  | n + 1 => do
    let b ← getByte arr start
    let rest ← readBytes arr (start + 1) n
    .ok (b :: rest)

/-- The value of a little-endian byte string, as `int.from_bytes(..., 'little')`
and `struct.unpack('<I', ...)` compute it. -/
def leValue : List ℕ → ℕ
  | [] => 0
  | b :: t => b + 256 * leValue t

/-- `DataView.get_uint_32`: `struct.unpack('<I', self.__get_binary(start_index, 4))`. -/
def get_uint_32 (arr : List ℕ) (start : ℕ) : Except DecodeError ℕ := do
  let bs ← readBytes arr start 4
  .ok (leValue bs)

/-- `DataView.get_float_32`: `struct.unpack('<f', self.__get_binary(start_index, 4))`.
The resulting float32 is represented by its little-endian bit pattern (the two
are in bijection). -/
def get_float_32 (arr : List ℕ) (start : ℕ) : Except DecodeError ℕ := do
  let bs ← readBytes arr start 4
  .ok (leValue bs)

/-- `type_bytes = data[:2]; type_bytes[-1]`: byte 1 of the frame when the frame
has at least two bytes, byte 0 for a one-byte frame, `IndexError` when empty. -/
def typeByte (data : List ℕ) : Except DecodeError ℕ :=
  match data with
  | [] => .error (.indexError 0)
  | [b] => .ok b
  | _ :: b :: _ => .ok b

/-- The branch cascade of `MovesenseDataCollector.handle_notification` that turns a
raw frame into `(sensor_type, timestamp, sensor_data)`.  Byte values 99, 98, 97
select the three-axis kinds (floats at offsets 6, 10, 14), 96 and 95 the scalar
kinds (one float at offset 6); any other id byte hits the
`logger.error("Unknown sensor type"); return` branch. -/
def decodeFrame (data : List ℕ) : Except DecodeError (String × ℕ × List ℕ) := do
  let idByte ← typeByte data
  if idByte = 99 then
    let ts ← get_uint_32 data 2
    let x ← get_float_32 data 6
    let y ← get_float_32 data 10
    let z ← get_float_32 data 14
    return ("Acc", ts, [x, y, z])
  else if idByte = 98 then
    let ts ← get_uint_32 data 2
    let x ← get_float_32 data 6
    let y ← get_float_32 data 10
    let z ← get_float_32 data 14
    return ("Gyro", ts, [x, y, z])
  else if idByte = 97 then
    let ts ← get_uint_32 data 2
    let x ← get_float_32 data 6
    let y ← get_float_32 data 10
    let z ← get_float_32 data 14
    return ("Magn", ts, [x, y, z])
  else if idByte = 96 then
    let ts ← get_uint_32 data 2
    let x ← get_float_32 data 6
    return ("Temperature", ts, [x])
  else if idByte = 95 then
    let ts ← get_uint_32 data 2
    let x ← get_float_32 data 6
    return ("ECG", ts, [x])
  else
    .error .unknownSensorType

/-- `MovesenseDataCollector.get_notification_handler` followed by
`NotificationHandler.handle_notification`: the handler for the key is created on
first use (appended at the end of the dict) and the notification is appended to
its list. -/
def appendSample : CollectorState → Key → Notification → CollectorState
  | [], k, n => [(k, [n])]
  | (k', l) :: t, k, n =>
    if k' = k then (k', l ++ [n]) :: t else (k', l) :: appendSample t k n

/-- The notifications stored for a key (`[]` when no handler exists yet). -/
def streamOf : CollectorState → Key → List Notification
  | [], _ => []
  | (k', l) :: t, k => if k' = k then l else streamOf t k

/-- `MovesenseDataCollector.handle_notification`: decode the frame and append the
sample to the handler keyed by `(sender, sensor_type)`.  The unknown-sensor
branch logs and returns with the state unchanged; an `IndexError` raised during
the reads propagates out of the coroutine. -/
def handle_notification (st : CollectorState) (sender : String) (data : List ℕ)
    (now : ℚ) : Except DecodeError CollectorState :=
  match decodeFrame data with
  | .ok (stype, ts, sd) =>
      .ok (appendSample st (sender, stype) ⟨sender, stype, ts, now, sd⟩)
  | .error .unknownSensorType => .ok st
  | .error e => .error e

/-- Spec-side (§3, RawFrame): the unsigned 32-bit little-endian integer stored at
bytes `[i, i+4)` of the frame. -/
def uint32leAt (data : List ℕ) (i : ℕ) : ℕ :=
  data.getD i 0 + 256 * data.getD (i + 1) 0 + 65536 * data.getD (i + 2) 0 +
    16777216 * data.getD (i + 3) 0

/-- Spec-side (§3, SensorKind): the component arity of the kind selected by an id
byte (3 for the three-axis kinds, 1 for Temperature and ECG). -/
def kindArity (b : ℕ) : ℕ :=
  if b = 99 then 3 else if b = 98 then 3 else if b = 97 then 3
  else if b = 96 then 1 else if b = 95 then 1 else 0

/-- Spec-side: the sensor-kind name selected by an id byte. -/
def kindName (b : ℕ) : String :=
  if b = 99 then "Acc" else if b = 98 then "Gyro" else if b = 97 then "Magn"
  else if b = 96 then "Temperature" else if b = 95 then "ECG" else ""

/-! ## Device manager: sensor registration

`movesense_sensor.py` is not among the sources; only the fields of
`MovesenseSensor` used by the manager appear here (`id`, the single id byte of
the subscription, and `path`, the subscription path written over GATT). -/

/-- The sensor object stored in `ConnectedDevice.sensors`. -/
structure MovesenseSensor where
  id : ℕ
  path : String
deriving DecidableEq

/-- Python dict assignment `d[k] = v`: replaces the value of an existing key in
place, otherwise appends the new key at the end. -/
def dictSet : List (ℕ × MovesenseSensor) → ℕ → MovesenseSensor →
    List (ℕ × MovesenseSensor)
  | [], k, v => [(k, v)]
  | (k', v') :: t, k, v =>
    if k' = k then (k, v) :: t else (k', v') :: dictSet t k v

/-- `MovesenseDeviceManager.subscribe_to_sensor`: after the GATT write (I/O,
outside the model) the sensor is stored with `device.sensors[sensor.id] = sensor`. -/
def subscribe_to_sensor (sensors : List (ℕ × MovesenseSensor))
    (sensor : MovesenseSensor) : List (ℕ × MovesenseSensor) :=
  dictSet sensors sensor.id sensor

/-- The registration stored for an id byte, if any. -/
def sensorAt : List (ℕ × MovesenseSensor) → ℕ → Option MovesenseSensor
  | [], _ => none
  | (k', v) :: t, k => if k' = k then some v else sensorAt t k

/-! ## Unification engine (`MovesenseDataCollector.unify_notifications`) -/

/-- Errors raised by the pandas pipeline.
`keyError` models the `KeyError` raised by
`df.groupby(["device_id", "sensor_type"])` when `all_notifications` is empty
(the empty DataFrame has no such columns); `nonFiniteCast` models the
`ValueError`/`IntCastingNaNError` raised by `.astype(int)` on the NaN produced
by the `0/0` division in a single-sample group. -/
inductive UnifyError where
  | keyError
  | nonFiniteCast
deriving DecidableEq

/-! ### IEEE-754 binary64 arithmetic

`(x - x.min())` and `(x - x.min()).max()` are exact int64 operations, but the
division and the multiplication by `highest_observation_count` run in numpy
float64.  They are modelled bit-exactly: a nonnegative binary64 value is a
significand-exponent pair, and division/multiplication round to nearest, ties
to even, implemented over `ℕ`/`ℤ` so that concrete instances compute in the
kernel.  All inputs here (ranks, counts) are far below `2 ^ 53`, so the
int64-to-float64 conversions are exact and no overflow or subnormal arises. -/

/-- Bit length of a natural number (`0` for `0`); explicit fuel recursion, the
fuel `n` always sufficing since the argument halves each step. -/
def bitLenAux : ℕ → ℕ → ℕ
  | 0, _ => 0
  | fuel + 1, n => if n = 0 then 0 else bitLenAux fuel (n / 2) + 1

def bitLen (n : ℕ) : ℕ := bitLenAux n n

/-- A nonnegative binary64 value `m · 2 ^ e`: `2 ^ 52 ≤ m < 2 ^ 53` for
nonzero values, `m = 0` for zero. -/
structure F64 where
  m : ℕ
  e : ℤ
deriving DecidableEq

/-- Binary64 division `a / b` of exactly-represented naturals (`b ≠ 0`),
rounded to nearest, ties to even: scale `a` so the integer quotient carries
more than 53 bits, truncate to 53 bits, and round on the dropped quotient bits
combined with the division remainder. -/
def fdiv (a b : ℕ) : F64 :=
  if a = 0 then ⟨0, 0⟩ else
  let k := 54 + bitLen b
  let N := a * 2 ^ k
  let Q := N / b
  let R := N % b
  let sh := bitLen Q - 53
  let m0 := Q / 2 ^ sh
  let low := Q % 2 ^ sh
  let twice := 2 * (low * b + R)
  let halfb := b * 2 ^ sh
  let m1 := if twice > halfb then m0 + 1
            else if twice < halfb then m0
            else if m0 % 2 = 0 then m0 else m0 + 1
  if m1 = 2 ^ 53 then ⟨2 ^ 52, (sh : ℤ) - k + 1⟩ else ⟨m1, (sh : ℤ) - k⟩

/-- Binary64 multiplication of a value by an exactly-represented natural
(`M < 2 ^ 53`), rounded to nearest, ties to even. -/
def fmulNat (x : F64) (M : ℕ) : F64 :=
  if x.m = 0 ∨ M = 0 then ⟨0, 0⟩ else
  let P := x.m * M
  let L := bitLen P
  if L ≤ 53 then ⟨P, x.e⟩ else
  let sh := L - 53
  let m0 := P / 2 ^ sh
  let low := P % 2 ^ sh
  let half := 2 ^ (sh - 1)
  let m1 := if low > half then m0 + 1
            else if low < half then m0
            else if m0 % 2 = 0 then m0 else m0 + 1
  if m1 = 2 ^ 53 then ⟨2 ^ 52, x.e + sh + 1⟩ else ⟨m1, x.e + sh⟩

/-- `astype(int)` on a nonnegative finite binary64 value: truncation toward
zero. -/
def ftrunc (x : F64) : ℕ :=
  if 0 ≤ x.e then x.m * 2 ^ x.e.toNat else x.m / 2 ^ (-x.e).toNat

/-- `highest_observation_count = df.groupby(["device_id", "sensor_type"])["id"]
.count().max()`: the largest per-stream sample count.  Groups exist only for
nonempty streams; folding `max` over all entry lengths (empty ones contribute
`0`) gives the same value whenever the frame is nonempty. -/
def highest_observation_count (st : CollectorState) : ℕ :=
  (st.map fun e => e.2.length).foldr Nat.max 0

/-- The per-group transform
`lambda x: ((x - x.min()) / ((x - x.min()).max()) * highest_observation_count)
.astype(int)` applied to one group's global ids.  pandas groups are never
empty; the `[]` case is unreachable and returns `[]` (no rows to transform).
The subtraction and the max are exact int64 arithmetic; the division and the
multiplication are binary64 operations (`fdiv`, `fmulNat`); `astype(int)`
truncates toward zero (`ftrunc` — all values are nonnegative).  When
`(x - x.min()).max() = 0` (a single-sample group) the division yields
`0/0 = NaN` and the cast raises. -/
def groupTransform (ids : List ℕ) (M : ℕ) : Except UnifyError (List ℤ) :=
  match ids with
  | [] => .ok []
  | x :: xs =>
    let xmin := xs.foldl Nat.min x
    let shifted := (x :: xs).map (· - xmin)
    let denom := shifted.foldl Nat.max 0
    if denom = 0 then .error .nonFiniteCast
    else .ok (shifted.map fun s : ℕ => (ftrunc (fmulNat (fdiv s denom) M) : ℤ))

/-- `df.insert(0, "id", range(0, len(df)))` followed by the grouped transform:
the concatenated frame gives each stream a contiguous block of global ids
starting at the running offset; each group is transformed independently.
Every sample is paired with its computed `relative_id`. -/
def assignIdsAux : CollectorState → ℕ → ℕ →
    Except UnifyError (List (Key × List (ℤ × Notification)))
  | [], _, _ => .ok []
  | (k, l) :: rest, ofs, M => do
    let ids := (List.range l.length).map (· + ofs)
    let rel ← groupTransform ids M
    let tail ← assignIdsAux rest (ofs + l.length) M
    .ok ((k, rel.zip l) :: tail)

/-- The `relative_id` assignment for the whole frame (global ids start at 0). -/
def assignIds (st : CollectorState) (M : ℕ) :
    Except UnifyError (List (Key × List (ℤ × Notification))) :=
  assignIdsAux st 0 M

/-- The value the code computes for the sample of zero-based rank `r` in a
stream of `c` samples (`c ≥ 2`), with `M` the highest observation count: the
binary64 evaluation of `r / (c - 1) * M`, truncated toward zero. -/
def relativeIdF (r c M : ℕ) : ℤ :=
  (ftrunc (fmulNat (fdiv r (c - 1)) M) : ℤ)

/-- Spec-side (§4.3 step 3): `floor(r / (c_s - 1) * M)` clamped to `[0, M]`. -/
def relativeIndexSpec (r c M : ℕ) : ℤ :=
  max 0 (min (M : ℤ) ⌊(r : ℚ) / ((c : ℚ) - 1) * (M : ℚ)⌋)

/-- Sorted insertion of a row index, skipping duplicates: the pivot index is the
sorted set of observed `relative_id` values. -/
def insSorted (i : ℤ) : List ℤ → List ℤ
  | [] => [i]
  | j :: t =>
    if i = j then j :: t
    else if i < j then i :: j :: t
    else j :: insSorted i t

/-- The pivot row index: sorted distinct `relative_id` values over all streams. -/
def rowIndices (assigned : List (Key × List (ℤ × Notification))) : List ℤ :=
  (assigned.flatMap fun e => e.2.map fun p => p.1).foldr insSorted []

/-- The pivot cell of one stream at one row index: the sample mapped there, if
any.  `pivot_table` with `aggfunc=lambda x: x` places the group's single value
in the cell; the first match is taken (by `relativeId_strictMono` below, a
stream never maps two samples to one index, so the cell is unambiguous). -/
def cellAt (l : List (ℤ × Notification)) (i : ℤ) : Option Notification :=
  (l.find? fun p => p.1 = i).map fun p => p.2

/-- Entries that contributed at least one row: only these appear as pivot
columns. -/
def nonEmptyEntries (assigned : List (Key × List (ℤ × Notification))) :
    List (Key × List (ℤ × Notification)) :=
  assigned.filter fun e => ¬ e.2.isEmpty

/-- One pivoted column after the flattening
`df_pivot.columns = [' '.join(col).strip() ...]`: its string label and its cell
values (as pandas floats) per row index. -/
structure PivotCol where
  label : String
  cells : ℤ → Option ℚ

/-- `lhs` starts with `needle`. -/
def startsWithL : List Char → List Char → Bool
  | [], _ => true
  | _ :: _, [] => false
  | a :: as, b :: bs => a = b && startsWithL as bs

/-- `needle` occurs as a contiguous substring of `hay`: the test
`pandas.DataFrame.filter(like=...)` performs (`like in label`). -/
def occursIn (needle : List Char) : List Char → Bool
  | [] => needle.isEmpty
  | c :: t => startsWithL needle (c :: t) || occursIn needle t

/-- `re.search("^timestamp.+", label)`: the label starts with `timestamp` and
has at least one further character. -/
def regexTimestampPlus (l : String) : Bool :=
  startsWithL "timestamp".data l.data && decide (9 < l.data.length)

/-- `re.search("local_timestamp.+", label)`: some occurrence of
`local_timestamp` in the label is followed by at least one character. -/
def occursFollowed (needle : List Char) : List Char → Bool
  | [] => false
  | c :: t =>
    (startsWithL needle (c :: t) && decide (needle.length < (c :: t).length)) ||
      occursFollowed needle t

def regexLocalTimestampPlus (l : String) : Bool :=
  occursFollowed "local_timestamp".data l.data

/-- The `local_timestamp` columns of the pivot, labelled
`"local_timestamp <device_id> <sensor_type>"`. -/
def ltsCols (assigned : List (Key × List (ℤ × Notification))) : List PivotCol :=
  (nonEmptyEntries assigned).map fun e =>
    ⟨"local_timestamp" ++ " " ++ e.1.1 ++ " " ++ e.1.2,
     fun i => (cellAt e.2 i).map fun n => n.local_timestamp⟩

/-- The device `timestamp` columns of the pivot, labelled
`"timestamp <device_id> <sensor_type>"`. -/
def tsCols (assigned : List (Key × List (ℤ × Notification))) : List PivotCol :=
  (nonEmptyEntries assigned).map fun e =>
    ⟨"timestamp" ++ " " ++ e.1.1 ++ " " ++ e.1.2,
     fun i => (cellAt e.2 i).map fun n => (n.timestamp : ℚ)⟩

/-- The `sensor_data` columns after the XYZ split (three suffixed columns for
the matched columns, the joined label otherwise).  The code's test
`"Acc" in col` is membership in the label tuple
`("sensor_data", device_id, sensor_type)`, so it also fires on a device id
literally equal to "Acc"/"Gyro"/"Magn" — for such a device carrying a
scalar kind the real split would raise (three target columns from one value
column); that unreachable corner (bleak senders are handles, not these
strings) is not modelled.  The cells hold component tuples, not numbers; they
are never selected by the numeric timestamp merges (no generated label
contains `^timestamp`), so their cell values are represented as `none` here —
the actual component data is carried in `UnifiedRow.data`. -/
def dataCols (assigned : List (Key × List (ℤ × Notification))) : List PivotCol :=
  (nonEmptyEntries assigned).flatMap fun e =>
    if e.1.1 = "Acc" ∨ e.1.2 = "Acc" ∨ e.1.1 = "Magn" ∨ e.1.2 = "Magn" ∨
        e.1.1 = "Gyro" ∨ e.1.2 = "Gyro" then
      ["_X", "_Y", "_Z"].map fun ax =>
        ⟨"sensor_data" ++ "_" ++ e.1.1 ++ "_" ++ e.1.2 ++ ax, fun _ => none⟩
    else
      [⟨"sensor_data" ++ " " ++ e.1.1 ++ " " ++ e.1.2, fun _ => none⟩]

/-- The `relative_id` column restored by `reset_index()`. -/
def relIdCol : PivotCol :=
  ⟨"relative_id", fun i => some (i : ℚ)⟩

/-- All flattened pivot columns before the timestamp merges (pandas orders the
value families alphabetically; the order is irrelevant to the row minima). -/
def pivotCols (assigned : List (Key × List (ℤ × Notification))) : List PivotCol :=
  relIdCol :: (ltsCols assigned ++ dataCols assigned ++ tsCols assigned)

/-- `DataFrame.filter(like=needle)`: keep the columns whose label contains
`needle` as a substring. -/
def filter_like (needle : String) (cols : List PivotCol) : List PivotCol :=
  cols.filter fun c => occursIn needle.data c.label.data

/-- `.min(axis=1)` over a column selection: NaN cells are skipped; the minimum
over an empty selection is NaN (`none`). -/
def rowMin (cols : List PivotCol) (i : ℤ) : Option ℚ :=
  match cols.filterMap fun c => c.cells i with
  | [] => none
  | x :: xs => some (xs.foldl min x)

/-- `df_pivot.insert(0, "timestamp", df_pivot.filter(like="^timestamp").min(axis=1))`:
the unified timestamp cell.  `like` is a substring test, so `"^timestamp"`
matches no generated label and the selection is empty. -/
def mergedTimestampCell (assigned : List (Key × List (ℤ × Notification)))
    (i : ℤ) : Option ℚ :=
  rowMin (filter_like "^timestamp" (pivotCols assigned)) i

/-- The column list after inserting the unified `timestamp` column at position 0
and dropping the columns matching `^timestamp.+`. -/
def colsAfterTsMerge (assigned : List (Key × List (ℤ × Notification))) :
    List PivotCol :=
  ⟨"timestamp", mergedTimestampCell assigned⟩ ::
    (pivotCols assigned).filter fun c => ¬ regexTimestampPlus c.label

/-- `df_pivot.insert(0, "local_timestamp", df_pivot.filter(like="local_timestamp")
.min(axis=1))` computed on the columns left after the timestamp merge. -/
def mergedLocalCell (assigned : List (Key × List (ℤ × Notification)))
    (i : ℤ) : Option ℚ :=
  rowMin (filter_like "local_timestamp" (colsAfterTsMerge assigned)) i

/-- One row of the unified table: the row index, the merged `timestamp` and
`local_timestamp` cells, and per-stream component data (absent where the stream
contributed no sample at this index). -/
structure UnifiedRow where
  relative_id : ℤ
  timestamp : Option ℚ
  local_timestamp : Option ℚ
  data : List (Key × Option (List ℕ))
deriving DecidableEq

/-- `MovesenseDataCollector.unify_notifications`: concatenate all handlers'
notifications, assign global then relative ids, pivot by `relative_id`, split
the component columns, and merge the timestamp columns.  An empty frame makes
`groupby` raise `KeyError`; a single-sample stream makes `astype(int)` raise on
NaN. -/
def unify_notifications (st : CollectorState) : Except UnifyError (List UnifiedRow) :=
  if (st.map fun e => e.2.length).sum = 0 then .error .keyError
  else do
    let M := highest_observation_count st
    let assigned ← assignIds st M
    let idx := rowIndices assigned
    .ok (idx.map fun i =>
      { relative_id := i
        timestamp := mergedTimestampCell assigned i
        local_timestamp := mergedLocalCell assigned i
        data := (nonEmptyEntries assigned).map fun e =>
          (e.1, (cellAt e.2 i).map fun n => n.sensor_data) })

/-! ### Concrete data for witnesses and counterexamples -/

/-- Sample: Acc, device timestamp 100, local timestamp 5 s. -/
def nAcc1 : Notification := ⟨"D", "Acc", 100, 5, [1, 2, 3]⟩

/-- Sample: Acc, device timestamp 200, local timestamp 7 s. -/
def nAcc2 : Notification := ⟨"D", "Acc", 200, 7, [4, 5, 6]⟩

/-- Sample: Acc, device timestamp 300, local timestamp 9 s. -/
def nAcc3 : Notification := ⟨"D", "Acc", 300, 9, [7, 8, 9]⟩

/-- Sample: Gyro, device timestamp 110, local timestamp 6 s. -/
def nGyro1 : Notification := ⟨"D", "Gyro", 110, 6, [10, 11, 12]⟩

/-- Sample: Gyro, device timestamp 210, local timestamp 8 s. -/
def nGyro2 : Notification := ⟨"D", "Gyro", 210, 8, [13, 14, 15]⟩

/-- A frozen state with a three-sample Acc stream and a two-sample Gyro
stream (`M = 3`). -/
def stAccGyro : CollectorState :=
  [(("D", "Acc"), [nAcc1, nAcc2, nAcc3]), (("D", "Gyro"), [nGyro1, nGyro2])]

/-- A frozen state with one two-sample Acc stream. -/
def stAcc2 : CollectorState := [(("D", "Acc"), [nAcc1, nAcc2])]

/-- A frozen state with one single-sample Acc stream. -/
def stAcc1 : CollectorState := [(("D", "Acc"), [nAcc1])]

/-- A frozen state with an empty ECG stream next to a two-sample Acc stream. -/
def stEmptyEcg : CollectorState :=
  [(("D", "ECG"), []), (("D", "Acc"), [nAcc1, nAcc2])]

/-- A full Acc frame: marker `0xAA`, id byte 99, timestamp bytes
`00 00 00 01` (16777216), float components `1.0`, `-2.5`, `0.0`
(bit patterns 1065353216, 3223322624, 0). -/
def accFrame : List ℕ :=
  [170, 99, 0, 0, 0, 1, 0, 0, 128, 63, 0, 0, 32, 192, 0, 0, 0, 0]

/-- A full Temperature frame: id byte 96, timestamp 2, one component `1.0`. -/
def tempFrame : List ℕ := [170, 96, 2, 0, 0, 0, 0, 0, 128, 63]

/-- A synthetic sample for bulk states: device and local timestamps `r`, one
component. -/
def mkNote (stype : String) (r : ℕ) : Notification :=
  ⟨"D", stype, r, (r : ℚ), [r]⟩

/-- A frozen state with a 23-sample Gyro stream and a 44-sample Acc stream
(`M = 44`): at rank 15 of the Gyro stream, binary64 computes `(15/22)·44` as
`29.999999999999996`, so `astype(int)` yields 29 where the exact clamped floor
is 30. -/
def stBig : CollectorState :=
  [(("D", "Gyro"), (List.range 23).map (mkNote "Gyro")),
   (("D", "Acc"), (List.range 44).map (mkNote "Acc"))]


/-- The id assignment the pipeline computes for `stAccGyro` (`M = 3`):
Acc ranks scale by `3/2` (0, 1, 3), Gyro ranks by `3/1` (0, 3). -/
def wAssigned : List (Key × List (ℤ × Notification)) :=
  [(("D", "Acc"), [(0, nAcc1), (1, nAcc2), (3, nAcc3)]),
   (("D", "Gyro"), [(0, nGyro1), (3, nGyro2)])]

/-- The id assignment the pipeline computes for `stAcc2` (`M = 2`): ranks scale
by `2/1` (0, 2). -/
def wAcc2Assigned : List (Key × List (ℤ × Notification)) :=
  [(("D", "Acc"), [(0, nAcc1), (2, nAcc2)])]

/-! ## Helper lemmas -/

/-- Monadic bind on a success value. -/
theorem ok_bind {ε α β : Type} (a : α) (f : α → Except ε β) :
    (Except.ok a >>= f) = f a := rfl

/-- Monadic bind on an error value. -/
theorem error_bind {ε α β : Type} (e : ε) (f : α → Except ε β) :
    ((Except.error e : Except ε α) >>= f) = Except.error e := rfl

/-- Folding `Nat.min` over a list that the seed bounds from below returns the
seed. -/
theorem foldl_min_of_le (xs : List ℕ) (x : ℕ) (h : ∀ y ∈ xs, x ≤ y) :
    xs.foldl Nat.min x = x := by
  induction xs with
  | nil => rfl
  | cons y ys ih =>
    have hxy : Nat.min x y = x := Nat.min_eq_left (h y (by simp))
    simp only [List.foldl_cons, hxy]
    exact ih fun z hz => h z (by simp [hz])

/-- `max` of `range c` (seed 0) is `c - 1`. -/
theorem foldl_max_range (c : ℕ) : (List.range c).foldl Nat.max 0 = c - 1 := by
  induction c with
  | zero => rfl
  | succ n ih =>
    rw [List.range_succ, List.foldl_append, ih]
    simp only [List.foldl_cons, List.foldl_nil]
    show max (n - 1) n = n + 1 - 1
    rw [Nat.max_eq_right (Nat.sub_le n 1)]
    omega

/-- The group transform on a contiguous id block of length `c ≥ 2` starting at
any offset: the offset cancels (the int64 subtraction is exact) and each rank
`r` maps to `relativeIdF r c M`. -/
theorem groupTransform_range (c ofs M : ℕ) (h2 : 2 ≤ c) :
    groupTransform ((List.range c).map (· + ofs)) M =
      .ok ((List.range c).map fun r => relativeIdF r c M) := by
  obtain ⟨c', rfl⟩ : ∃ c', c = c' + 1 := ⟨c - 1, by omega⟩
  have hxs : (List.range (c' + 1)).map (· + ofs) =
      ofs :: (List.range c').map fun r => r + 1 + ofs := by
    rw [List.range_succ_eq_map]
    simp only [List.map_cons, Nat.zero_add, List.map_map]
    refine congrArg _ (List.map_congr_left fun r _ => ?_)
    simp [Function.comp, Nat.succ_eq_add_one]
  rw [hxs]
  simp only [groupTransform]
  have hmin : ((List.range c').map fun r => r + 1 + ofs).foldl Nat.min ofs = ofs := by
    refine foldl_min_of_le _ _ fun y hy => ?_
    simp only [List.mem_map] at hy
    obtain ⟨r, _, rfl⟩ := hy
    omega
  rw [hmin]
  have hshift : (ofs :: (List.range c').map fun r => r + 1 + ofs).map (· - ofs) =
      List.range (c' + 1) := by
    rw [List.range_succ_eq_map]
    simp only [List.map_cons, List.map_map, Nat.sub_self]
    refine congrArg _ (List.map_congr_left fun r _ => ?_)
    simp only [Function.comp_apply]
    omega
  rw [hshift, foldl_max_range]
  have hden : ¬ (c' + 1 - 1 = 0) := by omega
  rw [if_neg hden]
  exact congrArg Except.ok (List.map_congr_left fun r _ => rfl)

/-- A one-element group makes the transform raise the NaN-to-int cast error. -/
theorem groupTransform_single (x M : ℕ) :
    groupTransform [x] M = .error .nonFiniteCast := by
  simp [groupTransform, Nat.sub_self]

/-- The only error the group transform raises is the cast error. -/
theorem groupTransform_error (ids : List ℕ) (M : ℕ) (e : UnifyError)
    (h : groupTransform ids M = .error e) : e = .nonFiniteCast := by
  cases ids with
  | nil => simp [groupTransform] at h
  | cons x xs =>
    simp only [groupTransform] at h
    split at h
    · cases h
      rfl
    · cases h

/-- Every element is at most the `max`-fold of its list. -/
theorem le_foldr_max (xs : List ℕ) (x : ℕ) (hx : x ∈ xs) :
    x ≤ xs.foldr Nat.max 0 := by
  induction xs with
  | nil => cases hx
  | cons y ys ih =>
    rcases List.mem_cons.mp hx with rfl | hmem
    · show x ≤ max x (ys.foldr Nat.max 0)
      exact Nat.le_max_left _ _
    · calc x ≤ ys.foldr Nat.max 0 := ih hmem
        _ ≤ max y (ys.foldr Nat.max 0) := Nat.le_max_right _ _

/-- Every stream's sample count is at most `highest_observation_count`. -/
theorem length_le_highest (st : CollectorState) (e : Key × List Notification)
    (he : e ∈ st) : e.2.length ≤ highest_observation_count st :=
  le_foldr_max _ _ (List.mem_map.mpr ⟨e, he, rfl⟩)

/-- Shape of a successful id assignment: entry `i` keeps its key and pairs its
samples, in order, with `relativeIdF r c M` for ranks `r < c` — independently of
the offset, i.e. of all other streams' contents. -/
theorem assignIdsAux_get (st : CollectorState) (ofs M : ℕ)
    (assigned : List (Key × List (ℤ × Notification)))
    (h : assignIdsAux st ofs M = .ok assigned) (i : ℕ) (k : Key)
    (l : List Notification) (hi : st[i]? = some (k, l)) :
    assigned[i]? =
      some (k, ((List.range l.length).map fun r => relativeIdF r l.length M).zip l) := by
  induction st generalizing ofs assigned i with
  | nil => simp at hi
  | cons e rest ih =>
    obtain ⟨k0, l0⟩ := e
    rw [assignIdsAux] at h
    rcases hgt : groupTransform ((List.range l0.length).map (· + ofs)) M with e0 | rel
    · rw [hgt, error_bind] at h
      cases h
    · rw [hgt, ok_bind] at h
      rcases htl : assignIdsAux rest (ofs + l0.length) M with e1 | tail
      · rw [htl, error_bind] at h
        cases h
      · rw [htl, ok_bind] at h
        cases h
        cases i with
        | zero =>
          simp only [List.getElem?_cons_zero, Option.some.injEq] at hi
          cases hi
          simp only [List.getElem?_cons_zero, Option.some.injEq]
          have hrel : rel = (List.range l.length).map fun r => relativeIdF r l.length M := by
            have hlen : l.length = 0 ∨ l.length = 1 ∨ 2 ≤ l.length := by omega
            rcases hlen with h0 | h1 | h2
            · obtain rfl : l = [] := List.length_eq_zero.mp h0
              simp only [List.length_nil, List.range_zero, List.map_nil] at hgt ⊢
              rw [groupTransform] at hgt
              cases hgt
              rfl
            · obtain ⟨a, rfl⟩ : ∃ a, l = [a] := by
                rcases l with _ | ⟨a, _ | ⟨b, t⟩⟩ <;> simp_all
              have hone : (List.range ([a].length)).map (· + ofs) = [ofs] := by
                simp [List.range_succ]
              rw [hone, groupTransform_single] at hgt
              cases hgt
            · rw [groupTransform_range _ _ _ h2] at hgt
              cases hgt
              rfl
          rw [hrel]
        | succ i' =>
          simp only [List.getElem?_cons_succ] at hi ⊢
          exact ih (ofs + l0.length) tail htl i' hi

/-- A successful assignment has one entry per stream. -/
theorem assignIdsAux_length (st : CollectorState) (ofs M : ℕ)
    (assigned : List (Key × List (ℤ × Notification)))
    (h : assignIdsAux st ofs M = .ok assigned) : assigned.length = st.length := by
  induction st generalizing ofs assigned with
  | nil =>
    rw [assignIdsAux] at h
    cases h
    rfl
  | cons e rest ih =>
    obtain ⟨k0, l0⟩ := e
    rw [assignIdsAux] at h
    rcases hgt : groupTransform ((List.range l0.length).map (· + ofs)) M with e0 | rel
    · rw [hgt, error_bind] at h
      cases h
    · rw [hgt, ok_bind] at h
      rcases htl : assignIdsAux rest (ofs + l0.length) M with e1 | tail
      · rw [htl, error_bind] at h
        cases h
      · rw [htl, ok_bind] at h
        cases h
        simp [ih _ _ htl]

/-- The assignment succeeds when no stream has exactly one sample. -/
theorem assignIdsAux_isOk (st : CollectorState) (ofs M : ℕ)
    (h : ∀ e ∈ st, e.2.length ≠ 1) :
    ∃ assigned, assignIdsAux st ofs M = .ok assigned := by
  induction st generalizing ofs with
  | nil => exact ⟨[], rfl⟩
  | cons e rest ih =>
    obtain ⟨k0, l0⟩ := e
    obtain ⟨tail, htl⟩ := ih (ofs + l0.length) fun e he => h e (by simp [he])
    have hne : l0.length ≠ 1 := h (k0, l0) (by simp)
    have hlen : l0.length = 0 ∨ 2 ≤ l0.length := by omega
    rcases hlen with h0 | h2
    · refine ⟨(k0, []) :: tail, ?_⟩
      rw [assignIdsAux]
      have hids : (List.range l0.length).map (· + ofs) = [] := by
        rw [h0]
        rfl
      rw [hids, groupTransform, ok_bind, htl, ok_bind]
      obtain rfl : l0 = [] := List.length_eq_zero.mp h0
      rfl
    · refine ⟨(k0, ((List.range l0.length).map fun r => relativeIdF r l0.length M).zip l0) :: tail, ?_⟩
      rw [assignIdsAux, groupTransform_range _ _ _ h2, ok_bind, htl, ok_bind]

/-- Any frame containing a single-sample stream makes the assignment raise the
cast error (every failing group raises the same error, so the first one to be
transformed decides the outcome). -/
theorem assignIdsAux_single_error (pre post : CollectorState) (k : Key)
    (n : Notification) (ofs M : ℕ) :
    assignIdsAux (pre ++ (k, [n]) :: post) ofs M = .error .nonFiniteCast := by
  induction pre generalizing ofs with
  | nil =>
    rw [List.nil_append, assignIdsAux]
    have hone : (List.range ([n].length)).map (· + ofs) = [ofs] := by
      simp [List.range_succ]
    rw [hone, groupTransform_single, error_bind]
  | cons e rest ih =>
    obtain ⟨k0, l0⟩ := e
    rw [List.cons_append, assignIdsAux]
    rcases hgt : groupTransform ((List.range l0.length).map (· + ofs)) M with e0 | rel
    · obtain rfl : e0 = .nonFiniteCast := groupTransform_error _ _ _ hgt
      rw [error_bind]
    · rw [ok_bind, ih (ofs + l0.length), error_bind]

/-- On success, `unify_notifications` returns the pivot table built from the
computed assignment.  It succeeds whenever there is at least one sample and no
stream has exactly one sample. -/
theorem unify_ok (st : CollectorState)
    (htot : (st.map fun e => e.2.length).sum ≠ 0)
    (hne : ∀ e ∈ st, e.2.length ≠ 1) :
    ∃ assigned, assignIds st (highest_observation_count st) = .ok assigned ∧
      unify_notifications st = .ok ((rowIndices assigned).map fun i =>
        { relative_id := i
          timestamp := mergedTimestampCell assigned i
          local_timestamp := mergedLocalCell assigned i
          data := (nonEmptyEntries assigned).map fun e =>
            (e.1, (cellAt e.2 i).map fun n => n.sensor_data) }) := by
  obtain ⟨assigned, ha⟩ :=
    assignIdsAux_isOk st 0 (highest_observation_count st) hne
  have ha' : assignIds st (highest_observation_count st) = .ok assigned := ha
  refine ⟨assigned, ha', ?_⟩
  rw [unify_notifications, if_neg htot]
  simp only [ha', ok_bind]

/-- Every column of a successful table belongs to a nonempty stream of the
input state: empty streams produce no columns. -/
theorem table_data_keys (st : CollectorState)
    (assigned : List (Key × List (ℤ × Notification)))
    (ha : assignIds st (highest_observation_count st) = .ok assigned)
    (p : Key × Option (List ℕ)) (i : ℤ)
    (hp : p ∈ (nonEmptyEntries assigned).map fun e =>
      (e.1, (cellAt e.2 i).map fun n => n.sensor_data)) :
    ∃ (j : ℕ) (l' : List Notification), st[j]? = some (p.1, l') ∧ l' ≠ [] := by
  simp only [List.mem_map] at hp
  obtain ⟨e, he, rfl⟩ := hp
  have hmem : e ∈ assigned ∧ ¬ e.2.isEmpty := by
    simpa [nonEmptyEntries] using he
  obtain ⟨j, hj⟩ := List.mem_iff_getElem?.mp hmem.1
  have hjlt : j < st.length := by
    have h1 : j < assigned.length := by
      by_contra hcon
      rw [List.getElem?_eq_none (by omega)] at hj
      cases hj
    rwa [assignIdsAux_length st 0 _ assigned ha] at h1
  have hst : st[j]? = some st[j] := List.getElem?_eq_getElem hjlt
  rcases hget : st[j] with ⟨k, l⟩
  have hget2 := assignIdsAux_get st 0 _ assigned ha j k l (by rw [hst, hget])
  rw [hj] at hget2
  obtain rfl := (Option.some.injEq _ _).mp hget2
  have hstj : st[j]? = some (k, l) := by rw [hst, hget]
  refine ⟨j, l, hstj, ?_⟩
  intro hnil
  rw [hnil] at hmem
  simp [List.zip_nil_right] at hmem

/-! ### Decode-level helpers -/

/-- `getByte` fails only with the `IndexError` at its own index. -/
theorem getByte_err (arr : List ℕ) (i : ℕ) (e : DecodeError)
    (h : getByte arr i = .error e) : e = .indexError i := by
  rw [getByte] at h
  split at h
  · cases h
  · cases h
    rfl

/-- A successful byte read returns exactly the bytes at the read offsets. -/
theorem readBytes_ok (data : List ℕ) (cnt start : ℕ)
    (h : start + cnt ≤ data.length) :
    readBytes data start cnt =
      .ok ((List.range cnt).map fun x => data.getD (start + x) 0) := by
  induction cnt generalizing start with
  | zero => rfl
  | succ n ih =>
    have hlt : start < data.length := by omega
    have hb : getByte data start = .ok (data.getD start 0) := by
      rw [getByte, List.get?_eq_getElem?, List.getElem?_eq_getElem hlt]
      simp [List.getD_eq_getElem?_getD, List.getElem?_eq_getElem hlt]
    rw [readBytes, hb, ok_bind, ih (start + 1) (by omega), ok_bind,
      List.range_succ_eq_map, List.map_cons, List.map_map]
    have hhead : data.getD (start + 0) 0 = data.getD start 0 := by
      rw [Nat.add_zero]
    have htail : (List.range n).map ((fun x => data.getD (start + x) 0) ∘ Nat.succ) =
        (List.range n).map fun x => data.getD (start + 1 + x) 0 :=
      List.map_congr_left fun x _ => by
        simp only [Function.comp_apply]
        congr 1
        omega
    rw [hhead, htail]

/-- A failed byte read fails with some `IndexError`. -/
theorem readBytes_err (data : List ℕ) (cnt start : ℕ) (e : DecodeError)
    (h : readBytes data start cnt = .error e) : ∃ j, e = .indexError j := by
  induction cnt generalizing start with
  | zero => cases h
  | succ n ih =>
    rw [readBytes] at h
    rcases hgb : getByte data start with e0 | b
    · rw [hgb, error_bind] at h
      cases h
      exact ⟨start, getByte_err _ _ _ hgb⟩
    · rw [hgb, ok_bind] at h
      rcases hrb : readBytes data (start + 1) n with e1 | l
      · rw [hrb, error_bind] at h
        cases h
        exact ih (start + 1) hrb
      · rw [hrb, ok_bind] at h
        cases h

/-- A successful byte read implies every accessed index is in range. -/
theorem readBytes_ok_le (data : List ℕ) (cnt start : ℕ) (l : List ℕ)
    (h : readBytes data start cnt = .ok l) :
    ∀ j < cnt, start + j < data.length := by
  induction cnt generalizing start l with
  | zero =>
    intro j hj
    omega
  | succ n ih =>
    rw [readBytes] at h
    rcases hgb : getByte data start with e0 | b
    · rw [hgb, error_bind] at h
      cases h
    · rw [hgb, ok_bind] at h
      have hlt : start < data.length := by
        rw [getByte] at hgb
        split at hgb
        · next hsome =>
          rw [List.get?_eq_getElem?] at hsome
          by_contra hcon
          rw [List.getElem?_eq_none (by omega)] at hsome
          cases hsome
        · cases hgb
      rcases hrb : readBytes data (start + 1) n with e1 | l1
      · rw [hrb, error_bind] at h
        cases h
      · intro j hj
        cases j with
        | zero => omega
        | succ j' =>
          have := ih (start + 1) l1 hrb j' (by omega)
          omega

/-- A uint32 read inside the frame returns the little-endian value at its
offset. -/
theorem get_uint_32_ok (data : List ℕ) (start : ℕ)
    (h : start + 4 ≤ data.length) :
    get_uint_32 data start = .ok (uint32leAt data start) := by
  rw [get_uint_32, readBytes_ok data 4 start h, ok_bind]
  have h4 : List.range 4 = [0, 1, 2, 3] := rfl
  rw [h4]
  simp only [List.map_cons, List.map_nil, leValue, uint32leAt]
  norm_num
  ring

/-- A float32 read inside the frame returns the little-endian bit pattern at
its offset. -/
theorem get_float_32_ok (data : List ℕ) (start : ℕ)
    (h : start + 4 ≤ data.length) :
    get_float_32 data start = .ok (uint32leAt data start) := by
  rw [get_float_32, readBytes_ok data 4 start h, ok_bind]
  have h4 : List.range 4 = [0, 1, 2, 3] := rfl
  rw [h4]
  simp only [List.map_cons, List.map_nil, leValue, uint32leAt]
  norm_num
  ring

/-- A failed uint32 read fails with some `IndexError`. -/
theorem get_uint_32_err (data : List ℕ) (start : ℕ) (e : DecodeError)
    (h : get_uint_32 data start = .error e) : ∃ j, e = .indexError j := by
  rw [get_uint_32] at h
  rcases hrb : readBytes data start 4 with e1 | l
  · rw [hrb, error_bind] at h
    cases h
    exact readBytes_err data 4 start _ hrb
  · rw [hrb, ok_bind] at h
    cases h

/-- A failed float32 read fails with some `IndexError`. -/
theorem get_float_32_err (data : List ℕ) (start : ℕ) (e : DecodeError)
    (h : get_float_32 data start = .error e) : ∃ j, e = .indexError j := by
  rw [get_float_32] at h
  rcases hrb : readBytes data start 4 with e1 | l
  · rw [hrb, error_bind] at h
    cases h
    exact readBytes_err data 4 start _ hrb
  · rw [hrb, ok_bind] at h
    cases h

/-- Frame bytes are below 256, so is any defaulted byte. -/
theorem getD_lt (data : List ℕ) (hb : ∀ b ∈ data, b < 256) (i : ℕ) :
    data.getD i 0 < 256 := by
  rw [List.getD_eq_getElem?_getD]
  rcases h : data[i]? with _ | b
  · norm_num
  · exact hb b (List.getElem?_mem h)

/-- The uint32 value of four in-range bytes is below `2 ^ 32`. -/
theorem uint32leAt_lt (data : List ℕ) (start : ℕ)
    (hb : ∀ b ∈ data, b < 256) : uint32leAt data start < 2 ^ 32 := by
  have h0 := getD_lt data hb start
  have h1 := getD_lt data hb (start + 1)
  have h2 := getD_lt data hb (start + 2)
  have h3 := getD_lt data hb (start + 3)
  rw [uint32leAt]
  omega

/-- Decoding a frame whose id byte selects a three-axis kind: the result is
either an `IndexError` or a successful decode of a frame of at least 18 bytes. -/
theorem body3_shape (data : List ℕ) (name : String)
    (r : Except DecodeError (String × ℕ × List ℕ))
    (h : (do
        let ts ← get_uint_32 data 2
        let x ← get_float_32 data 6
        let y ← get_float_32 data 10
        let z ← get_float_32 data 14
        return (name, ts, [x, y, z])) = r) :
    (∃ j, r = .error (.indexError j)) ∨ (18 ≤ data.length ∧ ∃ v, r = .ok v) := by
  rcases hts : get_uint_32 data 2 with e | ts
  · rw [hts, error_bind] at h
    obtain ⟨j, rfl⟩ := get_uint_32_err _ _ _ hts
    exact .inl ⟨j, h.symm⟩
  rw [hts, ok_bind] at h
  rcases hx : get_float_32 data 6 with e | x
  · rw [hx, error_bind] at h
    obtain ⟨j, rfl⟩ := get_float_32_err _ _ _ hx
    exact .inl ⟨j, h.symm⟩
  rw [hx, ok_bind] at h
  rcases hy : get_float_32 data 10 with e | y
  · rw [hy, error_bind] at h
    obtain ⟨j, rfl⟩ := get_float_32_err _ _ _ hy
    exact .inl ⟨j, h.symm⟩
  rw [hy, ok_bind] at h
  rcases hz : get_float_32 data 14 with e | z
  · rw [hz, error_bind] at h
    obtain ⟨j, rfl⟩ := get_float_32_err _ _ _ hz
    exact .inl ⟨j, h.symm⟩
  rw [hz, ok_bind] at h
  refine .inr ⟨?_, (name, ts, [x, y, z]), h.symm⟩
  rw [get_float_32] at hz
  rcases hrb : readBytes data 14 4 with e | l
  · rw [hrb, error_bind] at hz
    cases hz
  · have := readBytes_ok_le data 4 14 l hrb 3 (by omega)
    omega

/-- Decoding a frame whose id byte selects a scalar kind: the result is either
an `IndexError` or a successful decode of a frame of at least 10 bytes. -/
theorem body1_shape (data : List ℕ) (name : String)
    (r : Except DecodeError (String × ℕ × List ℕ))
    (h : (do
        let ts ← get_uint_32 data 2
        let x ← get_float_32 data 6
        return (name, ts, [x])) = r) :
    (∃ j, r = .error (.indexError j)) ∨ (10 ≤ data.length ∧ ∃ v, r = .ok v) := by
  rcases hts : get_uint_32 data 2 with e | ts
  · rw [hts, error_bind] at h
    obtain ⟨j, rfl⟩ := get_uint_32_err _ _ _ hts
    exact .inl ⟨j, h.symm⟩
  rw [hts, ok_bind] at h
  rcases hx : get_float_32 data 6 with e | x
  · rw [hx, error_bind] at h
    obtain ⟨j, rfl⟩ := get_float_32_err _ _ _ hx
    exact .inl ⟨j, h.symm⟩
  rw [hx, ok_bind] at h
  refine .inr ⟨?_, (name, ts, [x]), h.symm⟩
  rw [get_float_32] at hx
  rcases hrb : readBytes data 6 4 with e | l
  · rw [hrb, error_bind] at hx
    cases hx
  · have := readBytes_ok_le data 4 6 l hrb 3 (by omega)
    omega

/-- Successful decode of a long-enough frame with a recognised id byte:
the timestamp is the uint32 at bytes `[2, 6)` and the components are the
`arity` float32 patterns read consecutively from byte 6. -/
theorem decodeFrame_recognized (b0 b1 : ℕ) (rest : List ℕ)
    (hid : b1 = 99 ∨ b1 = 98 ∨ b1 = 97 ∨ b1 = 96 ∨ b1 = 95)
    (hlen : 6 + 4 * kindArity b1 ≤ (b0 :: b1 :: rest).length) :
    decodeFrame (b0 :: b1 :: rest) = .ok (kindName b1,
      uint32leAt (b0 :: b1 :: rest) 2,
      (List.range (kindArity b1)).map fun j =>
        uint32leAt (b0 :: b1 :: rest) (6 + 4 * j)) := by
  have hlen' : 6 + 4 * kindArity b1 ≤ rest.length + 2 := by
    simpa using hlen
  rcases hid with rfl | rfl | rfl | rfl | rfl
  · have hl : (18 : ℕ) ≤ rest.length + 2 := by simpa [kindArity] using hlen'
    have hu := get_uint_32_ok (b0 :: 99 :: rest) 2 (by simp; omega)
    have hx := get_float_32_ok (b0 :: 99 :: rest) 6 (by simp; omega)
    have hy := get_float_32_ok (b0 :: 99 :: rest) 10 (by simp; omega)
    have hz := get_float_32_ok (b0 :: 99 :: rest) 14 (by simp; omega)
    have ht : typeByte (b0 :: 99 :: rest) = .ok 99 := rfl
    simp only [decodeFrame, ht, ok_bind, hu, hx, hy, hz]
    norm_num [kindName, kindArity]
    have h3 : List.range 3 = [0, 1, 2] := rfl
    rw [h3]
    norm_num
    rfl
  · have hl : (18 : ℕ) ≤ rest.length + 2 := by simpa [kindArity] using hlen'
    have hu := get_uint_32_ok (b0 :: 98 :: rest) 2 (by simp; omega)
    have hx := get_float_32_ok (b0 :: 98 :: rest) 6 (by simp; omega)
    have hy := get_float_32_ok (b0 :: 98 :: rest) 10 (by simp; omega)
    have hz := get_float_32_ok (b0 :: 98 :: rest) 14 (by simp; omega)
    have ht : typeByte (b0 :: 98 :: rest) = .ok 98 := rfl
    simp only [decodeFrame, ht, ok_bind, hu, hx, hy, hz]
    norm_num [kindName, kindArity]
    have h3 : List.range 3 = [0, 1, 2] := rfl
    rw [h3]
    norm_num
    rfl
  · have hl : (18 : ℕ) ≤ rest.length + 2 := by simpa [kindArity] using hlen'
    have hu := get_uint_32_ok (b0 :: 97 :: rest) 2 (by simp; omega)
    have hx := get_float_32_ok (b0 :: 97 :: rest) 6 (by simp; omega)
    have hy := get_float_32_ok (b0 :: 97 :: rest) 10 (by simp; omega)
    have hz := get_float_32_ok (b0 :: 97 :: rest) 14 (by simp; omega)
    have ht : typeByte (b0 :: 97 :: rest) = .ok 97 := rfl
    simp only [decodeFrame, ht, ok_bind, hu, hx, hy, hz]
    norm_num [kindName, kindArity]
    have h3 : List.range 3 = [0, 1, 2] := rfl
    rw [h3]
    norm_num
    rfl
  · have hl : (10 : ℕ) ≤ rest.length + 2 := by simpa [kindArity] using hlen'
    have hu := get_uint_32_ok (b0 :: 96 :: rest) 2 (by simp; omega)
    have hx := get_float_32_ok (b0 :: 96 :: rest) 6 (by simp; omega)
    have ht : typeByte (b0 :: 96 :: rest) = .ok 96 := rfl
    simp only [decodeFrame, ht, ok_bind, hu, hx]
    norm_num [kindName, kindArity]
    have h1 : List.range 1 = [0] := rfl
    rw [h1]
    norm_num
    rfl
  · have hl : (10 : ℕ) ≤ rest.length + 2 := by simpa [kindArity] using hlen'
    have hu := get_uint_32_ok (b0 :: 95 :: rest) 2 (by simp; omega)
    have hx := get_float_32_ok (b0 :: 95 :: rest) 6 (by simp; omega)
    have ht : typeByte (b0 :: 95 :: rest) = .ok 95 := rfl
    simp only [decodeFrame, ht, ok_bind, hu, hx]
    norm_num [kindName, kindArity]
    have h1 : List.range 1 = [0] := rfl
    rw [h1]
    norm_num
    rfl


/-- For a recognised id byte, decoding either raises an `IndexError` (never any
other error) or succeeds on a long-enough frame. -/
theorem decodeFrame_cases (b0 b1 : ℕ) (rest : List ℕ)
    (hid : b1 = 99 ∨ b1 = 98 ∨ b1 = 97 ∨ b1 = 96 ∨ b1 = 95) :
    (∃ j, decodeFrame (b0 :: b1 :: rest) = .error (.indexError j)) ∨
      (6 + 4 * kindArity b1 ≤ (b0 :: b1 :: rest).length ∧
        ∃ v, decodeFrame (b0 :: b1 :: rest) = .ok v) := by
  rcases hid with rfl | rfl | rfl | rfl | rfl
  · have ht : typeByte (b0 :: 99 :: rest) = .ok 99 := rfl
    have hEq : decodeFrame (b0 :: 99 :: rest) = (do
        let ts ← get_uint_32 (b0 :: 99 :: rest) 2
        let x ← get_float_32 (b0 :: 99 :: rest) 6
        let y ← get_float_32 (b0 :: 99 :: rest) 10
        let z ← get_float_32 (b0 :: 99 :: rest) 14
        return ("Acc", ts, [x, y, z])) := by
      simp only [decodeFrame, ht, ok_bind]
      norm_num
    rcases body3_shape _ "Acc" _ hEq.symm with ⟨j, hj⟩ | ⟨hl, v, hv⟩
    · exact .inl ⟨j, hj⟩
    · refine .inr ⟨by simpa [kindArity] using hl, v, hv⟩
  · have ht : typeByte (b0 :: 98 :: rest) = .ok 98 := rfl
    have hEq : decodeFrame (b0 :: 98 :: rest) = (do
        let ts ← get_uint_32 (b0 :: 98 :: rest) 2
        let x ← get_float_32 (b0 :: 98 :: rest) 6
        let y ← get_float_32 (b0 :: 98 :: rest) 10
        let z ← get_float_32 (b0 :: 98 :: rest) 14
        return ("Gyro", ts, [x, y, z])) := by
      simp only [decodeFrame, ht, ok_bind]
      norm_num
    rcases body3_shape _ "Gyro" _ hEq.symm with ⟨j, hj⟩ | ⟨hl, v, hv⟩
    · exact .inl ⟨j, hj⟩
    · refine .inr ⟨by simpa [kindArity] using hl, v, hv⟩
  · have ht : typeByte (b0 :: 97 :: rest) = .ok 97 := rfl
    have hEq : decodeFrame (b0 :: 97 :: rest) = (do
        let ts ← get_uint_32 (b0 :: 97 :: rest) 2
        let x ← get_float_32 (b0 :: 97 :: rest) 6
        let y ← get_float_32 (b0 :: 97 :: rest) 10
        let z ← get_float_32 (b0 :: 97 :: rest) 14
        return ("Magn", ts, [x, y, z])) := by
      simp only [decodeFrame, ht, ok_bind]
      norm_num
    rcases body3_shape _ "Magn" _ hEq.symm with ⟨j, hj⟩ | ⟨hl, v, hv⟩
    · exact .inl ⟨j, hj⟩
    · refine .inr ⟨by simpa [kindArity] using hl, v, hv⟩
  · have ht : typeByte (b0 :: 96 :: rest) = .ok 96 := rfl
    have hEq : decodeFrame (b0 :: 96 :: rest) = (do
        let ts ← get_uint_32 (b0 :: 96 :: rest) 2
        let x ← get_float_32 (b0 :: 96 :: rest) 6
        return ("Temperature", ts, [x])) := by
      simp only [decodeFrame, ht, ok_bind]
      norm_num
    rcases body1_shape _ "Temperature" _ hEq.symm with ⟨j, hj⟩ | ⟨hl, v, hv⟩
    · exact .inl ⟨j, hj⟩
    · refine .inr ⟨by simpa [kindArity] using hl, v, hv⟩
  · have ht : typeByte (b0 :: 95 :: rest) = .ok 95 := rfl
    have hEq : decodeFrame (b0 :: 95 :: rest) = (do
        let ts ← get_uint_32 (b0 :: 95 :: rest) 2
        let x ← get_float_32 (b0 :: 95 :: rest) 6
        return ("ECG", ts, [x])) := by
      simp only [decodeFrame, ht, ok_bind]
      norm_num
    rcases body1_shape _ "ECG" _ hEq.symm with ⟨j, hj⟩ | ⟨hl, v, hv⟩
    · exact .inl ⟨j, hj⟩
    · refine .inr ⟨by simpa [kindArity] using hl, v, hv⟩

/-- `handle_notification` on a recognised, long-enough frame: the decoded
sample is appended to the stream keyed by `(sender, kind)` and stamped with
`now`. -/
theorem handle_recognized (st : CollectorState) (sender : String)
    (b0 b1 : ℕ) (rest : List ℕ) (now : ℚ)
    (hid : b1 = 99 ∨ b1 = 98 ∨ b1 = 97 ∨ b1 = 96 ∨ b1 = 95)
    (hlen : 6 + 4 * kindArity b1 ≤ (b0 :: b1 :: rest).length) :
    handle_notification st sender (b0 :: b1 :: rest) now =
      .ok (appendSample st (sender, kindName b1)
        ⟨sender, kindName b1, uint32leAt (b0 :: b1 :: rest) 2, now,
         (List.range (kindArity b1)).map fun j =>
           uint32leAt (b0 :: b1 :: rest) (6 + 4 * j)⟩) := by
  rw [handle_notification, decodeFrame_recognized b0 b1 rest hid hlen]

/-- An `IndexError` during decode propagates out of `handle_notification`. -/
theorem handle_indexError (st : CollectorState) (sender : String)
    (data : List ℕ) (now : ℚ) (j : ℕ)
    (h : decodeFrame data = .error (.indexError j)) :
    handle_notification st sender data now = .error (.indexError j) := by
  rw [handle_notification, h]

/-- The unknown-sensor branch leaves the state unchanged. -/
theorem handle_unknown (st : CollectorState) (sender : String)
    (data : List ℕ) (now : ℚ)
    (h : decodeFrame data = .error .unknownSensorType) :
    handle_notification st sender data now = .ok st := by
  rw [handle_notification, h]

/-- Appending a sample extends exactly its own stream, at the end. -/
theorem streamOf_appendSample_self (st : CollectorState) (k : Key)
    (n : Notification) :
    streamOf (appendSample st k n) k = streamOf st k ++ [n] := by
  induction st with
  | nil => simp [appendSample, streamOf]
  | cons e t ih =>
    obtain ⟨k0, l0⟩ := e
    by_cases h : k0 = k
    · subst h
      simp [appendSample, streamOf]
    · simp [appendSample, streamOf, h, ih]

/-- Appending a sample leaves every other stream unchanged. -/
theorem streamOf_appendSample_ne (st : CollectorState) (k : Key)
    (n : Notification) (q : Key) (hq : q ≠ k) :
    streamOf (appendSample st k n) q = streamOf st q := by
  induction st with
  | nil => simp [appendSample, streamOf, Ne.symm hq]
  | cons e t ih =>
    obtain ⟨k0, l0⟩ := e
    by_cases h : k0 = k
    · subst h
      have hq2 : k0 ≠ q := fun hh => hq hh.symm
      simp [appendSample, streamOf, hq2]
    · by_cases h2 : k0 = q
      · subst h2
        simp [appendSample, streamOf, h]
      · simp [appendSample, streamOf, h, h2, ih]

/-- A key occurs in the updated registration dict iff it is the stored key or
was already present. -/
theorem mem_keys_dictSet (t : List (ℕ × MovesenseSensor)) (k : ℕ)
    (v : MovesenseSensor) (x : ℕ) :
    x ∈ (dictSet t k v).map (fun e => e.1) ↔
      x ∈ t.map (fun e => e.1) ∨ x = k := by
  induction t with
  | nil => simp [dictSet]
  | cons e t ih =>
    obtain ⟨k0, v0⟩ := e
    by_cases h : k0 = k
    · subst h
      simp [dictSet]
      tauto
    · simp [dictSet, h, ih]
      tauto

/-- Dict assignment stores the value under its key. -/
theorem sensorAt_dictSet_self (s : List (ℕ × MovesenseSensor)) (k : ℕ)
    (v : MovesenseSensor) : sensorAt (dictSet s k v) k = some v := by
  induction s with
  | nil => simp [dictSet, sensorAt]
  | cons e t ih =>
    obtain ⟨k0, v0⟩ := e
    by_cases h : k0 = k
    · subst h
      simp [dictSet, sensorAt]
    · simp [dictSet, sensorAt, h, ih]

/-- Dict assignment leaves all other keys unchanged. -/
theorem sensorAt_dictSet_ne (s : List (ℕ × MovesenseSensor)) (k : ℕ)
    (v : MovesenseSensor) (q : ℕ) (hq : q ≠ k) :
    sensorAt (dictSet s k v) q = sensorAt s q := by
  induction s with
  | nil => simp [dictSet, sensorAt, Ne.symm hq]
  | cons e t ih =>
    obtain ⟨k0, v0⟩ := e
    by_cases h : k0 = k
    · subst h
      have hq2 : k0 ≠ q := fun hh => hq hh.symm
      simp [dictSet, sensorAt, hq2]
    · by_cases h2 : k0 = q
      · subst h2
        simp [dictSet, sensorAt, h]
      · simp [dictSet, sensorAt, h, h2, ih]

/-- Dict assignment preserves key uniqueness. -/
theorem dictSet_keys_nodup (s : List (ℕ × MovesenseSensor)) (k : ℕ)
    (v : MovesenseSensor) (h : (s.map (fun e => e.1)).Nodup) :
    ((dictSet s k v).map (fun e => e.1)).Nodup := by
  induction s with
  | nil => simp [dictSet]
  | cons e t ih =>
    obtain ⟨k0, v0⟩ := e
    simp only [List.map_cons, List.nodup_cons] at h
    by_cases hk : k0 = k
    · subst hk
      have hred : dictSet ((k0, v0) :: t) k0 v = (k0, v) :: t := by
        simp [dictSet]
      rw [hred]
      simp only [List.map_cons, List.nodup_cons]
      exact h
    · simp only [dictSet, if_neg hk, List.map_cons, List.nodup_cons]
      refine ⟨?_, ih h.2⟩
      intro hmem
      rcases (mem_keys_dictSet t k v k0).mp hmem with hold | rfl
      · exact h.1 hold
      · exact hk rfl



/-- An unrecognised id byte takes the `logger.error` branch. -/
theorem decodeFrame_unknown (b0 b1 : ℕ) (rest : List ℕ)
    (h99 : b1 ≠ 99) (h98 : b1 ≠ 98) (h97 : b1 ≠ 97) (h96 : b1 ≠ 96)
    (h95 : b1 ≠ 95) :
    decodeFrame (b0 :: b1 :: rest) = .error .unknownSensorType := by
  have ht : typeByte (b0 :: b1 :: rest) = .ok b1 := rfl
  simp only [decodeFrame, ht, ok_bind, if_neg h99, if_neg h98, if_neg h97,
    if_neg h96, if_neg h95]

/-! ## Claims -/

/-- C3: every raw frame whose id byte (byte 1) resolves to a registered sensor
kind and whose buffer is at least `6 + 4·arity` bytes decodes successfully: the
sample's `device_timestamp` is the unsigned 32-bit little-endian integer at
bytes `[2, 6)` (below `2^32`), its components are exactly `arity` little-endian
float32 values (bit patterns) read consecutively from byte 6, held as an
ordered list of length `arity` (length 1 for Temperature and ECG), and its
`local_timestamp` is stamped with the wall-clock time `now` of the decode. -/
theorem claim_C3 (st : CollectorState) (sender : String) (b0 b1 : ℕ)
    (rest : List ℕ) (now : ℚ)
    (hid : b1 = 99 ∨ b1 = 98 ∨ b1 = 97 ∨ b1 = 96 ∨ b1 = 95)
    (hbytes : ∀ b ∈ b0 :: b1 :: rest, b < 256)
    (hlen : 6 + 4 * kindArity b1 ≤ (b0 :: b1 :: rest).length) :
    decodeFrame (b0 :: b1 :: rest) = .ok (kindName b1,
      uint32leAt (b0 :: b1 :: rest) 2,
      (List.range (kindArity b1)).map fun j =>
        uint32leAt (b0 :: b1 :: rest) (6 + 4 * j)) ∧
    ((List.range (kindArity b1)).map fun j =>
      uint32leAt (b0 :: b1 :: rest) (6 + 4 * j)).length = kindArity b1 ∧
    uint32leAt (b0 :: b1 :: rest) 2 < 2 ^ 32 ∧
    handle_notification st sender (b0 :: b1 :: rest) now =
      .ok (appendSample st (sender, kindName b1)
        ⟨sender, kindName b1, uint32leAt (b0 :: b1 :: rest) 2, now,
         (List.range (kindArity b1)).map fun j =>
           uint32leAt (b0 :: b1 :: rest) (6 + 4 * j)⟩) :=
  ⟨decodeFrame_recognized b0 b1 rest hid hlen, by simp,
    uint32leAt_lt _ 2 hbytes,
    handle_recognized st sender b0 b1 rest now hid hlen⟩

/-- Witness for C3 at the spec §8 example frame: id byte 99 (Acc), timestamp
bytes `00 00 00 01` = 16777216, components `1.0, -2.5, 0.0` (bit patterns
1065353216, 3223322624, 0), decoded at wall-clock time 5. -/
theorem claim_C3_witness :
    decodeFrame accFrame = .ok ("Acc", 16777216, [1065353216, 3223322624, 0]) ∧
      handle_notification [] "D" accFrame 5 =
        .ok [(("D", "Acc"),
          [⟨"D", "Acc", 16777216, 5, [1065353216, 3223322624, 0]⟩])] := by
  have h := claim_C3 [] "D" 170 99
    [0, 0, 0, 1, 0, 0, 128, 63, 0, 0, 32, 192, 0, 0, 0, 0] 5
    (by norm_num) (by decide) (by decide)
  exact ⟨h.1.trans (by decide), h.2.2.2.trans (by decide)⟩

/-- C7: a frame whose id byte (byte 1) has no matching registration fails to
decode with the unknown-sensor error, is dropped with no stream created or
modified, and handling returns normally (collection continues). -/
theorem claim_C7 (st : CollectorState) (sender : String) (b0 b1 : ℕ)
    (rest : List ℕ) (now : ℚ)
    (h99 : b1 ≠ 99) (h98 : b1 ≠ 98) (h97 : b1 ≠ 97) (h96 : b1 ≠ 96)
    (h95 : b1 ≠ 95) :
    decodeFrame (b0 :: b1 :: rest) = .error .unknownSensorType ∧
      handle_notification st sender (b0 :: b1 :: rest) now = .ok st := by
  have hdec := decodeFrame_unknown b0 b1 rest h99 h98 h97 h96 h95
  exact ⟨hdec, handle_unknown _ _ _ _ hdec⟩

/-- Witness for C7: id byte 42 is unknown; the state is untouched. -/
theorem claim_C7_witness :
    decodeFrame [170, 42, 1, 2, 3] = .error .unknownSensorType ∧
      handle_notification stAcc2 "D" [170, 42, 1, 2, 3] 0 = .ok stAcc2 :=
  claim_C7 stAcc2 "D" 170 42 [1, 2, 3] 0 (by decide) (by decide) (by decide)
    (by decide) (by decide)

/-- Counterexample to C6 as stated: a 2-byte frame with recognised id byte 99
is shorter than `6 + 4·3` bytes, yet decode does not produce the `Truncated`
error value — it raises `IndexError` at index 2 (the first out-of-range read),
an uncaught exception. -/
theorem claim_C6_cex :
    decodeFrame [170, 99] = .error (.indexError 2) ∧
      decodeFrame [170, 99] ≠ .error .truncated := by
  decide

/-- C6 (amended): for every recognised id byte and every buffer shorter than
`6 + 4·arity` bytes, decode fails by raising `IndexError` (never the spec's
`Truncated` value, which the code does not define), and the exception
propagates out of `handle_notification`, so no sample is appended. -/
theorem claim_C6 (st : CollectorState) (sender : String) (b0 b1 : ℕ)
    (rest : List ℕ) (now : ℚ)
    (hid : b1 = 99 ∨ b1 = 98 ∨ b1 = 97 ∨ b1 = 96 ∨ b1 = 95)
    (hshort : (b0 :: b1 :: rest).length < 6 + 4 * kindArity b1) :
    ∃ j, decodeFrame (b0 :: b1 :: rest) = .error (.indexError j) ∧
      decodeFrame (b0 :: b1 :: rest) ≠ .error .truncated ∧
      handle_notification st sender (b0 :: b1 :: rest) now =
        .error (.indexError j) := by
  rcases decodeFrame_cases b0 b1 rest hid with ⟨j, hj⟩ | ⟨hl, v, hv⟩
  · exact ⟨j, hj, by simp [hj], handle_indexError st sender _ now j hj⟩
  · omega

/-- Witness for C6 at a 3-byte Magnetometer frame. -/
theorem claim_C6_witness :
    ∃ j, decodeFrame [170, 97, 1] = .error (.indexError j) ∧
      decodeFrame [170, 97, 1] ≠ .error .truncated ∧
      handle_notification [] "D" [170, 97, 1] 0 = .error (.indexError j) :=
  claim_C6 [] "D" 170 97 [1] 0 (by norm_num) (by decide)

/-- Counterexample to C9 as stated: registering a second sensor under the
already-registered id byte 5 does not fail with any duplicate-id error — the
assignment `device.sensors[sensor.id] = sensor` silently replaces the previous
registration. -/
theorem claim_C9_cex :
    subscribe_to_sensor [(5, ⟨5, "Meas/Acc/52"⟩)] ⟨5, "Meas/Gyro/52"⟩ =
      [(5, (⟨5, "Meas/Gyro/52"⟩ : MovesenseSensor))] := by
  decide

/-- C9 (amended): registering a sensor stores it under its id byte, silently
replacing any existing registration with that id (no `DuplicateSensorId`
failure exists); other registrations are untouched, and id uniqueness within a
device is preserved by replacement rather than by rejection. -/
theorem claim_C9 (sensors : List (ℕ × MovesenseSensor)) (s : MovesenseSensor) :
    sensorAt (subscribe_to_sensor sensors s) s.id = some s ∧
    (∀ q, q ≠ s.id → sensorAt (subscribe_to_sensor sensors s) q = sensorAt sensors q) ∧
    ((sensors.map fun e => e.1).Nodup →
      ((subscribe_to_sensor sensors s).map fun e => e.1).Nodup) :=
  ⟨sensorAt_dictSet_self sensors s.id s,
   fun q hq => sensorAt_dictSet_ne sensors s.id s q hq,
   fun h => dictSet_keys_nodup sensors s.id s h⟩

/-- Witness for C9: replacing id 5, leaving id 4 alone, keys stay distinct. -/
theorem claim_C9_witness :
    sensorAt (subscribe_to_sensor [(5, ⟨5, "Meas/Acc/52"⟩)] ⟨5, "Meas/Gyro/52"⟩) 5 =
      some ⟨5, "Meas/Gyro/52"⟩ ∧
    sensorAt (subscribe_to_sensor [(5, ⟨5, "Meas/Acc/52"⟩)] ⟨5, "Meas/Gyro/52"⟩) 4 =
      sensorAt [(5, ⟨5, "Meas/Acc/52"⟩)] 4 ∧
    ((subscribe_to_sensor [(5, ⟨5, "Meas/Acc/52"⟩)] ⟨5, "Meas/Gyro/52"⟩).map
      fun e => e.1).Nodup :=
  ⟨(claim_C9 [(5, ⟨5, "Meas/Acc/52"⟩)] ⟨5, "Meas/Gyro/52"⟩).1,
   (claim_C9 [(5, ⟨5, "Meas/Acc/52"⟩)] ⟨5, "Meas/Gyro/52"⟩).2.1 4 (by decide),
   (claim_C9 [(5, ⟨5, "Meas/Acc/52"⟩)] ⟨5, "Meas/Gyro/52"⟩).2.2 (by decide)⟩

/-- Counterexample to C10 as stated: the frame `[170, 98]` has id byte 98
(Gyroscope) but processing it appends nothing — it raises `IndexError` at
index 2 instead of appending one sample. -/
theorem claim_C10_cex :
    handle_notification [] "D" [170, 98] 0 = .error (.indexError 2) := by
  decide

/-- C10 (amended): for a frame with id byte in {95..99} that carries at least
`6 + 4·arity` bytes, processing appends exactly one sample to exactly one
stream — the one keyed by `(device_id, decoded kind)`, created on first use —
and leaves every other stream unchanged; for any other id byte no stream is
created or modified.  (A shorter frame with a recognised id raises instead of
appending — see the counterexample.) -/
theorem claim_C10 (st : CollectorState) (sender : String) (b0 b1 : ℕ)
    (rest : List ℕ) (now : ℚ) :
    ((b1 = 99 ∨ b1 = 98 ∨ b1 = 97 ∨ b1 = 96 ∨ b1 = 95) →
      6 + 4 * kindArity b1 ≤ (b0 :: b1 :: rest).length →
      ∃ n : Notification,
        handle_notification st sender (b0 :: b1 :: rest) now =
          .ok (appendSample st (sender, kindName b1) n) ∧
        streamOf (appendSample st (sender, kindName b1) n) (sender, kindName b1) =
          streamOf st (sender, kindName b1) ++ [n] ∧
        ∀ q : Key, q ≠ (sender, kindName b1) →
          streamOf (appendSample st (sender, kindName b1) n) q = streamOf st q) ∧
    (b1 ≠ 99 → b1 ≠ 98 → b1 ≠ 97 → b1 ≠ 96 → b1 ≠ 95 →
      handle_notification st sender (b0 :: b1 :: rest) now = .ok st) := by
  constructor
  · intro hid hlen
    exact ⟨_, handle_recognized st sender b0 b1 rest now hid hlen,
      streamOf_appendSample_self st _ _,
      fun q hq => streamOf_appendSample_ne st _ _ q hq⟩
  · intro h99 h98 h97 h96 h95
    exact handle_unknown _ _ _ _ (decodeFrame_unknown b0 b1 rest h99 h98 h97 h96 h95)

/-- Witness for C10: a full Temperature frame appends one sample to the
`("D", "Temperature")` stream of the empty state; an id-42 frame changes
nothing. -/
theorem claim_C10_witness :
    (∃ n : Notification,
      handle_notification [] "D" (170 :: 96 :: [2, 0, 0, 0, 0, 0, 128, 63]) 3 =
        .ok (appendSample [] ("D", kindName 96) n) ∧
      streamOf (appendSample [] ("D", kindName 96) n) ("D", kindName 96) =
        streamOf [] ("D", kindName 96) ++ [n] ∧
      ∀ q : Key, q ≠ ("D", kindName 96) →
        streamOf (appendSample [] ("D", kindName 96) n) q = streamOf [] q) ∧
    handle_notification [] "E" (170 :: 42 :: []) 3 = .ok [] :=
  ⟨(claim_C10 [] "D" 170 96 [2, 0, 0, 0, 0, 0, 128, 63] 3).1 (by norm_num)
      (by decide),
   (claim_C10 [] "E" 170 42 [] 3).2 (by decide) (by decide) (by decide)
      (by decide) (by decide)⟩



set_option maxRecDepth 8000 in
/-- Counterexample to C1 as stated: with a 23-sample stream next to a
44-sample stream (`M = 44`), the pipeline assigns rank 15 of the shorter
stream `relative_index = 29` — binary64 computes `(15/22)·44` as
`29.999999999999996` and `astype(int)` truncates — while the claimed
`floor(r / (c_s - 1) · M)` clamped to `[0, M]` equals 30. -/
theorem claim_C1_cex :
    assignIds stBig (highest_observation_count stBig) = .ok
      [(("D", "Gyro"),
        ((List.range 23).map fun r => relativeIdF r 23 44).zip
          ((List.range 23).map (mkNote "Gyro"))),
       (("D", "Acc"),
        ((List.range 44).map fun r => relativeIdF r 44 44).zip
          ((List.range 44).map (mkNote "Acc")))] ∧
    relativeIdF 15 23 44 = 29 ∧
    relativeIndexSpec 15 23 44 = 30 := by
  refine ⟨by decide, by decide, ?_⟩
  have h1 : ((15 : ℕ) : ℚ) / (((23 : ℕ) : ℚ) - 1) * ((44 : ℕ) : ℚ) =
      ((660 : ℕ) : ℚ) / ((22 : ℕ) : ℚ) := by
    push_cast
    norm_num
  rw [relativeIndexSpec, h1, Rat.floor_natCast_div_natCast]
  decide

/-- C1 (amended): in a successful unification pass, the sample of zero-based
arrival rank `r` in a stream with `c > 1` samples is assigned the binary64
evaluation of `r / (c - 1) · M` truncated toward zero (`relativeIdF`), where
`M` is the maximum sample count over all included streams; the value is never
negative and depends only on `r`, `c` and `M` — the other streams (their
contents and interleaving) enter only through `M`, the integer id offset
cancelling exactly.  It equals the spec's clamped `floor(r / (c - 1) · M)`
only where the float64 rounding does not cross an integer boundary (it does
at rank 15 of a 23-sample stream with `M = 44`, see `claim_C1_cex`). -/
theorem claim_C1 (st : CollectorState)
    (assigned : List (Key × List (ℤ × Notification))) (i : ℕ) (k : Key)
    (l : List Notification)
    (hN : (st.map fun e => e.1).Nodup)
    (hi : st[i]? = some (k, l)) (h2 : 2 ≤ l.length)
    (ha : assignIds st (highest_observation_count st) = .ok assigned) :
    assigned[i]? = some (k,
      ((List.range l.length).map fun r =>
        relativeIdF r l.length (highest_observation_count st)).zip l) ∧
    ∀ r : ℕ, 0 ≤ relativeIdF r l.length (highest_observation_count st) := by
  refine ⟨assignIdsAux_get st 0 _ assigned ha i k l hi, fun r => ?_⟩
  rw [relativeIdF]
  omega

/-- Witness for C1: in `stAccGyro` (Acc count 3, Gyro count 2, `M = 3`) the
Gyro stream's ranks 0 and 1 map to indices 0 and 3 (exact at these sizes),
and the indices are nonnegative. -/
theorem claim_C1_witness :
    wAssigned[1]? = some (("D", "Gyro"),
      ((List.range ([nGyro1, nGyro2].length)).map fun r =>
        relativeIdF r ([nGyro1, nGyro2].length)
          (highest_observation_count stAccGyro)).zip [nGyro1, nGyro2]) ∧
    ∀ r : ℕ, 0 ≤ relativeIdF r ([nGyro1, nGyro2].length)
        (highest_observation_count stAccGyro) :=
  claim_C1 stAccGyro wAssigned 1 ("D", "Gyro") [nGyro1, nGyro2] (by decide)
    (by decide) (by decide) (by decide)

/-- Counterexample to C5 as stated: a frozen state whose only stream holds
exactly one sample does not map that sample to `relative_index = 0` — the
whole unification raises the NaN-to-int cast error (`0/0` in the transform). -/
theorem claim_C5_cex :
    unify_notifications stAcc1 = .error .nonFiniteCast := by
  decide

/-- C5 (amended): streams with zero samples are excluded from unification
without any division by zero (they contribute no rows and no columns of the
table), and unification succeeds whenever every nonempty stream has at least
two samples; but a stream with exactly one sample makes unification fail with
the NaN-to-int cast error instead of assigning its sample `relative_index = 0`. -/
theorem claim_C5 :
    (∀ st : CollectorState, (st.map fun e => e.1).Nodup →
      (∀ e ∈ st, e.2 = [] ∨ 2 ≤ e.2.length) →
      (st.map fun e => e.2.length).sum ≠ 0 →
      ∃ t, unify_notifications st = .ok t ∧
        ∀ r ∈ t, ∀ p ∈ r.data, ∃ (j : ℕ) (l' : List Notification),
          st[j]? = some (p.1, l') ∧ l' ≠ []) ∧
    (∀ (pre post : CollectorState) (k : Key) (n : Notification),
      ((pre ++ (k, [n]) :: post).map fun e => e.1).Nodup →
      unify_notifications (pre ++ (k, [n]) :: post) = .error .nonFiniteCast) := by
  constructor
  · intro st hN hlen htot
    have hne : ∀ e ∈ st, e.2.length ≠ 1 := by
      intro e he
      rcases hlen e he with h0 | h2
      · simp [h0]
      · omega
    obtain ⟨assigned, ha, ht⟩ := unify_ok st htot hne
    refine ⟨_, ht, ?_⟩
    intro r hr p hp
    simp only [List.mem_map] at hr
    obtain ⟨i, _, rfl⟩ := hr
    exact table_data_keys st assigned ha p i hp
  · intro pre post k n hN
    rw [unify_notifications]
    have htot : ¬ (((pre ++ (k, [n]) :: post).map fun e => e.2.length).sum = 0) := by
      simp [List.sum_append]
    rw [if_neg htot]
    simp only [assignIds, assignIdsAux_single_error, error_bind]

/-- Witness for C5: the empty ECG stream of `stEmptyEcg` is excluded (every
table column belongs to a nonempty stream), and the singleton state built from
`nAcc1` raises the cast error. -/
theorem claim_C5_witness :
    (∃ t, unify_notifications stEmptyEcg = .ok t ∧
      ∀ r ∈ t, ∀ p ∈ r.data, ∃ (j : ℕ) (l' : List Notification),
        stEmptyEcg[j]? = some (p.1, l') ∧ l' ≠ []) ∧
    unify_notifications ([] ++ (("D", "Acc"), [nAcc1]) :: []) =
      .error .nonFiniteCast :=
  ⟨claim_C5.1 stEmptyEcg (by decide) (by decide) (by decide),
   claim_C5.2 [] [] ("D", "Acc") nAcc1 (by decide)⟩

/-- Counterexample to C8 as stated: unification of zero streams does not
return an empty table — `pd.DataFrame([])` has no `device_id`/`sensor_type`
columns and the `groupby` raises `KeyError`. -/
theorem claim_C8_cex : unify_notifications [] = .error .keyError := by
  decide

/-- C8 (amended): the unification engine is not total — zero streams (an empty
frame) fail with `KeyError` rather than yielding an empty table — but it
raises no error for any frozen state in which every stream has at least two
samples. -/
theorem claim_C8 :
    unify_notifications [] = .error .keyError ∧
    (∀ st : CollectorState, (st.map fun e => e.1).Nodup → st ≠ [] →
      (∀ e ∈ st, 2 ≤ e.2.length) →
      ∃ t, unify_notifications st = .ok t) := by
  constructor
  · decide
  · intro st hN hnil hlen
    have htot : (st.map fun e => e.2.length).sum ≠ 0 := by
      rcases st with _ | ⟨e, t⟩
      · exact absurd rfl hnil
      · have h2 := hlen e (by simp)
        simp only [List.map_cons, List.sum_cons]
        omega
    obtain ⟨assigned, ha, ht⟩ :=
      unify_ok st htot fun e he => by have := hlen e he; omega
    exact ⟨_, ht⟩

/-- Witness for C8: the two-sample state `stAcc2` unifies without error. -/
theorem claim_C8_witness : ∃ t, unify_notifications stAcc2 = .ok t :=
  claim_C8.2 stAcc2 (by decide) (by decide) (by decide)

/-- C2 (code bug): in the unified table of `stAcc2` (device timestamps 100 and
200, local timestamps 5 and 7), every row's unified `timestamp` cell is absent
(`none`): the merge `filter(like="^timestamp")` is a substring test that
matches no column, so the row minimum is taken over an empty selection — even
though the per-stream device-timestamp columns hold 100 and 200 (their row
minima, which the claim and the code's own comment prescribe, are computed
here as `rowMin (tsCols ...)`).  The `local_timestamp` merge works as claimed,
and absent streams stay absent. -/
theorem claim_C2_bug :
    unify_notifications stAcc2 = .ok [
      ⟨0, none, some 5, [(("D", "Acc"), some [1, 2, 3])]⟩,
      ⟨2, none, some 7, [(("D", "Acc"), some [4, 5, 6])]⟩] ∧
    assignIds stAcc2 (highest_observation_count stAcc2) = .ok wAcc2Assigned ∧
    rowMin (tsCols wAcc2Assigned) 0 = some 100 ∧
    rowMin (tsCols wAcc2Assigned) 2 = some 200 ∧
    filter_like "^timestamp" (pivotCols wAcc2Assigned) = [] := by
  refine ⟨?_, ?_, ?_, ?_, ?_⟩
  · decide
  · decide
  · decide
  · decide
  · rfl


end Movesense
